import Mathlib

/-!
Verification of the 2t3-DEPS single-node event broker against its
natural-language specification.

The development is a shallow embedding of the broker's core subsystems:

1. the binary framing layer of `internal/broker/storage.go`
   (`serializeEvent`, `deserializeEvents`, `LogStorage`);
2. the partition/publish path of `internal/broker/http.go` and
   `internal/broker/types.go` (`Partition`, `handlePublishEvent`);
3. the routing layer (`PartitionManager.RouteEvent`, FNV-1a hashing);
4. the topic catalog (`Broker.AddTopic` / `Broker.GetTopic` of
   `internal/broker/broker.go`);
5. the consumer-group offset store (`OffsetManager` as listed in
   `Docs/Architecture.md`, and the `PartitionManager.CommitOffset`
   facade of `types.go`).

Bytes are modelled as `Nat` (values below 256 where produced by the code),
files as `List Nat`, Go `int64` as `Int` with explicit two's-complement
conversion through `% 2^64`, and Go `uint32` narrowing as `% 2^32`.
Go maps are modelled as association lists with first-match lookup.
-/

deriving instance DecidableEq for Except

namespace Deps

/-- Big-endian 8-byte encoding of a 64-bit value, as
`binary.BigEndian.PutUint64` lays it out in `serializeEvent`
(storage.go line 96). Each byte is `v / 2^(8*i) % 256`. -/
def putUint64BE (v : Nat) : List Nat :=
  [v / 2^56 % 256, v / 2^48 % 256, v / 2^40 % 256, v / 2^32 % 256,
   v / 2^24 % 256, v / 2^16 % 256, v / 2^8 % 256, v % 256]

/-- Big-endian 4-byte encoding of a 32-bit value
(`binary.BigEndian.PutUint32`, storage.go lines 98 and 100). -/
def putUint32BE (v : Nat) : List Nat :=
  [v / 2^24 % 256, v / 2^16 % 256, v / 2^8 % 256, v % 256]

/-- Big-endian read of the first 8 bytes of a buffer
(`binary.BigEndian.Uint64`, storage.go lines 110-111). The callers in
`deserializeEvents` only invoke it when at least 24 bytes remain. -/
def getUint64BE (b : List Nat) : Nat :=
  match b with
  | b0 :: b1 :: b2 :: b3 :: b4 :: b5 :: b6 :: b7 :: _ =>
      b0 * 2^56 + b1 * 2^48 + b2 * 2^40 + b3 * 2^32 +
      b4 * 2^24 + b5 * 2^16 + b6 * 2^8 + b7
  | _ => 0

/-- Big-endian read of the first 4 bytes of a buffer
(`binary.BigEndian.Uint32`, storage.go lines 112 and 120). -/
def getUint32BE (b : List Nat) : Nat :=
  match b with
  | b0 :: b1 :: b2 :: b3 :: _ => b0 * 2^24 + b1 * 2^16 + b2 * 2^8 + b3
  | _ => 0

/-- Go's `uint32(n)` narrowing conversion applied to a non-negative length. -/
def uint32OfNat (n : Nat) : Nat := n % 2^32

/-- Go's `uint64(x)` conversion of an `int64`: two's-complement
reinterpretation, i.e. the representative of `x` modulo `2^64`. -/
def uint64OfInt (x : Int) : Nat := (x % (2:Int)^64).toNat

/-- Go's `int64(u)` conversion of a `uint64`: two's-complement
reinterpretation back into the signed range. -/
def toInt64 (u : Nat) : Int :=
  if u < 2^63 then (u : Int) else (u : Int) - 2^64

/-- `StoredEvent` of types.go lines 103-108: the on-disk record.
`Offset` and `Timestamp` are Go `int64`, `Key` a Go string viewed as its
UTF-8 bytes, `Payload` a byte slice. -/
structure StoredEvent where
  Offset : Int
  Timestamp : Int
  Key : List Nat
  Payload : List Nat
deriving DecidableEq, Repr

/-- `serializeEvent` of storage.go lines 89-104: frame layout
`[offset(8)][timestamp(8)][keyLength(4)][key][payloadLength(4)][payload]`,
all integers big-endian, lengths narrowed through `uint32`. -/
def serializeEvent (e : StoredEvent) : List Nat :=
  putUint64BE (uint64OfInt e.Offset) ++
    (putUint64BE (uint64OfInt e.Timestamp) ++
      (putUint32BE (uint32OfNat e.Key.length) ++
        (e.Key ++
          (putUint32BE (uint32OfNat e.Payload.length) ++ e.Payload))))

/-- `deserializeEvents` of storage.go lines 107-140: repeatedly parse
complete frames from the front of the buffer; `break` (here: return `[]`
at the current level, so the accumulated list is kept) as soon as fewer
than 24 bytes remain, or the key or payload length prefix claims more
bytes than remain. The Go function always returns a `nil` error. -/
def deserializeEvents (data : List Nat) : List StoredEvent :=
  if h24 : 24 ≤ data.length then
    if 24 + getUint32BE (data.drop 16) ≤ data.length then
      if 24 + getUint32BE (data.drop 16) +
          getUint32BE (data.drop (20 + getUint32BE (data.drop 16))) ≤ data.length then
        { Offset := toInt64 (getUint64BE data),
          Timestamp := toInt64 (getUint64BE (data.drop 8)),
          Key := (data.drop 20).take (getUint32BE (data.drop 16)),
          Payload := (data.drop (24 + getUint32BE (data.drop 16))).take
            (getUint32BE (data.drop (20 + getUint32BE (data.drop 16)))) } ::
          deserializeEvents (data.drop (24 + getUint32BE (data.drop 16) +
            getUint32BE (data.drop (20 + getUint32BE (data.drop 16)))))
      else []
    else []
  else []
termination_by data.length
decreasing_by simp only [List.length_drop]; omega

/-- A record whose Go-typed fields are representable: `int64` offset and
timestamp, and key/payload lengths below `2^32` (they are written through
a `uint32` length prefix, per the data model of spec section 3). -/
def validEvent (e : StoredEvent) : Prop :=
  -(2^63) ≤ e.Offset ∧ e.Offset < 2^63 ∧
  -(2^63) ≤ e.Timestamp ∧ e.Timestamp < 2^63 ∧
  e.Key.length < 2^32 ∧ e.Payload.length < 2^32

instance (e : StoredEvent) : Decidable (validEvent e) := by
  unfold validEvent; infer_instance

/-- A buffer holding no complete frame: it is shorter than the 24-byte fixed
header, or its key length prefix claims more bytes than remain, or its
payload length prefix does. These are exactly the three loop-exit conditions
of `deserializeEvents` (storage.go lines 109, 115, 123). -/
def incompleteFrame (t : List Nat) : Prop :=
  t.length < 24 ∨
  t.length < 24 + getUint32BE (t.drop 16) ∨
  t.length < 24 + getUint32BE (t.drop 16) +
    getUint32BE (t.drop (20 + getUint32BE (t.drop 16)))

instance (t : List Nat) : Decidable (incompleteFrame t) := by
  unfold incompleteFrame; infer_instance

/-- `LogStorage` of storage.go lines 11-15, with the open file modelled by
its byte contents. `offset` is the write cursor (Go `int64`). -/
structure LogStorage where
  file : List Nat
  offset : Int
deriving DecidableEq, Repr

/-- `NewLogStorage` of storage.go lines 18-35 applied to a log file with
the given contents: the starting offset is set to `info.Size()`, the
file's length in bytes. -/
def NewLogStorage (contents : List Nat) : LogStorage :=
  { file := contents, offset := (contents.length : Int) }

/-- The number of successfully framed records discoverable in a log file:
the number of complete frames its parse produces. This is the quantity the
spec's startup invariant for `next_offset` refers to. -/
def framedRecordCount (contents : List Nat) : Nat :=
  (deserializeEvents contents).length

/-- `LogStorage.Append` of storage.go lines 38-56: serialize the event,
write the frame at the end of the file, remember the byte offset at which
the frame begins, advance the write cursor by the frame length, and return
that byte offset. -/
def LogStorage.Append (l : LogStorage) (e : StoredEvent) : Int × LogStorage :=
  (l.offset,
   { file := l.file ++ serializeEvent e,
     offset := l.offset + ((serializeEvent e).length : Int) })

/-- The operations a `LogStorage` method can perform on its open file
handle. -/
inductive FileOp where
  | write (data : List Nat)
  | sync
  | seekTo (pos : Nat)
  | readUpTo (maxBytes : Nat)
deriving DecidableEq, Repr

/-- The sequence of file-handle operations `LogStorage.Append` performs
(storage.go lines 38-56): serialization is pure, then a single
`l.file.Write(data)` with the complete frame, then pure offset
bookkeeping. No other call on the file handle occurs in its body. -/
def LogStorage.appendOps (e : StoredEvent) : List FileOp :=
  [FileOp.write (serializeEvent e)]

/-- `LogStorage.Read` of storage.go lines 59-80: seek to `startOffset`,
read up to `maxBytes` bytes into a buffer, return an empty list on an
empty read (EOF), otherwise the parsed frames. The Go `deserializeEvents`
always returns a `nil` error, so the error-wrapping branch of `Read` is
unreachable; the `Except` layer records that `Read` can only fail on real
file I/O errors, which the in-memory file model does not produce. -/
def LogStorage.Read (l : LogStorage) (startOffset : Nat) (maxBytes : Nat) :
    Except String (List StoredEvent) :=
  let buffer := (l.file.drop startOffset).take maxBytes
  if buffer.length = 0 then Except.ok []
  else Except.ok (deserializeEvents buffer)

/-- `Partition` of types.go lines 111-133, restricted to the fields the
publish path touches: `currentOffset`, the record-offset counter that
"starts at 0 and increments monotonically" (types.go lines 123-125), and
the partition's `LogStorage`. -/
structure Partition where
  ID : Nat
  currentOffset : Int
  logStorage : LogStorage
deriving DecidableEq, Repr

/-- The publish path of `handlePublishEvent` (http.go lines 125-142) after
routing has selected the partition: build the `StoredEvent` with
`Offset := partition.currentOffset` and the request's key and payload,
append it to the partition's log, and answer with the value returned by
`LogStorage.Append` — the byte offset of the frame. No statement of the
handler (or of any other function in the source) increments
`partition.currentOffset`. -/
def handlePublishEvent (p : Partition) (key payload : List Nat) (ts : Int) :
    Int × Partition :=
  let storedEvent : StoredEvent :=
    { Offset := p.currentOffset, Timestamp := ts, Key := key, Payload := payload }
  let r := p.logStorage.Append storedEvent
  (r.1, { p with logStorage := r.2 })

/-- FNV-1a 32-bit hash (`hash/fnv`, `New32a` then `Write` as used in
`RouteEvent`): start from the offset basis 2166136261; for each byte, XOR
the byte in, then multiply by the prime 16777619 in `uint32`
arithmetic. -/
def fnv1a32 (bytes : List Nat) : Nat :=
  bytes.foldl (fun h b => ((h ^^^ b) * 16777619) % 2^32) 2166136261

/-- `Topic` of types.go lines 135-148. `Partitions` is the Go map from
partition id to partition. -/
structure Topic where
  Name : String
  NumPartitions : Nat
  Partitions : List (Nat × Partition)
deriving DecidableEq, Repr

/-- The broker state (broker.go lines 10-21): `topics` is the field
`b.topics`; `metaTopics` is the catalog held by the metadata manager
(`b.metadata`, metadata.go lines 14-18); `offsets` is the consumer-group
offset store, keyed by flattened strings. -/
structure BrokerState where
  topics : List (String × Topic)
  metaTopics : List (String × Topic)
  offsets : List (String × Int)
deriving DecidableEq, Repr

/-- A broker as `NewBroker` (broker.go lines 24-36) constructs it on a
fresh data directory: every map empty. -/
def freshBroker : BrokerState :=
  { topics := [], metaTopics := [], offsets := [] }

/-- `Broker.GetTopic` (broker.go lines 108-112): a lookup in `b.topics`,
`none` when absent. -/
def Broker.GetTopic (s : BrokerState) (name : String) : Option Topic :=
  s.topics.lookup name

/-- `Broker.AddTopic` (broker.go lines 58-104): fail if the metadata
manager already has the name; otherwise build the topic with its
partitions (each with a fresh, empty log file) and register it with the
metadata manager, which persists the catalog. The broker's own `topics`
map is not written by any statement of this function, exactly as in the
source. -/
def Broker.AddTopic (s : BrokerState) (name : String) (numPartitions : Nat) :
    BrokerState × Option String :=
  if (s.metaTopics.lookup name).isSome then
    (s, some ("topic already exists"))
  else
    let topic : Topic :=
      { Name := name, NumPartitions := numPartitions,
        Partitions := (List.range numPartitions).map (fun i =>
          (i, { ID := i, currentOffset := 0, logStorage := NewLogStorage [] })) }
    ({ s with metaTopics := (name, topic) :: s.metaTopics }, none)

/-- `PartitionManager.RouteEvent` (types.go lines 187-204): resolve the
topic through `Broker.GetTopic`, failing when it is absent; for a
non-empty key select partition `int(fnv1a(key)) % t.NumPartitions`,
otherwise a random partition (`rand.Intn(t.NumPartitions)`, modelled by
the extra argument `rnd` reduced modulo the count). The selected id is
looked up in the topic's partition map. -/
def PartitionManager.RouteEvent (s : BrokerState) (topic : String)
    (key : List Nat) (rnd : Nat) : Except String (Option Partition) :=
  match Broker.GetTopic s topic with
  | none => Except.error ("topic not found")
  | some t =>
    if key ≠ [] then
      Except.ok (t.Partitions.lookup (fnv1a32 key % t.NumPartitions))
    else
      Except.ok (t.Partitions.lookup (rnd % t.NumPartitions))

/-- The flattened offset-store key `"group-topic-partition"` built with
`fmt.Sprintf("%s-%s-%d", ...)` by both `OffsetManager.CommitOffset` and
`OffsetManager.GetOffset` (Docs/Architecture.md listing). -/
def offsetKey (consumerGroup topic : String) (partitionID : Nat) : String :=
  consumerGroup ++ "-" ++ topic ++ "-" ++ toString partitionID

/-- `OffsetManager.CommitOffset` (Docs/Architecture.md listing): store the
offset under the flattened key — the Go map update is modelled by a
shadowing cons, equivalent under first-match lookup — then persist the
whole map. -/
def OffsetManager.CommitOffset (offsets : List (String × Int))
    (consumerGroup topic : String) (partitionID : Nat) (offset : Int) :
    List (String × Int) :=
  (offsetKey consumerGroup topic partitionID, offset) :: offsets

/-- `OffsetManager.GetOffset` (Docs/Architecture.md listing): look the
flattened key up; a missing entry is reported as an error. -/
def OffsetManager.GetOffset (offsets : List (String × Int))
    (consumerGroup topic : String) (partitionID : Nat) : Except String Int :=
  match offsets.lookup (offsetKey consumerGroup topic partitionID) with
  | some offset => Except.ok offset
  | none => Except.error ("offset not found")

/-- `PartitionManager.CommitOffset` (types.go lines 212-214): its whole
body is `return nil` — it changes no state and reports success. -/
def PartitionManager.CommitOffset (s : BrokerState)
    (consumerGroup topic : String) (partitionID : Nat) (offset : Int) :
    BrokerState × Option String :=
  (s, none)

/-- `handleCommitOffset` (http.go lines 212-245): delegate to
`PartitionManager.CommitOffset`; when it returns no error, answer HTTP 200
with `{"status": "committed"}` (modelled by `true`), otherwise a 500 error
(`false`). -/
def handleCommitOffset (s : BrokerState) (consumerGroup topic : String)
    (partitionID : Nat) (offset : Int) : BrokerState × Bool :=
  match PartitionManager.CommitOffset s consumerGroup topic partitionID offset with
  | (s1, none) => (s1, true)
  | (s1, some _) => (s1, false)

/-- A fresh partition as `Broker.AddTopic` creates one: zero record-offset
counter and an empty log file. -/
def freshPartition : Partition :=
  { ID := 0, currentOffset := 0, logStorage := NewLogStorage [] }

/-- A log file holding exactly one complete frame: 24 bytes, empty key and
empty payload. -/
def singleRecordFile : List Nat :=
  serializeEvent { Offset := 0, Timestamp := 0, Key := [], Payload := [] }

/-- A 24-byte log file whose key length prefix (bytes 16-19, value 100)
claims more bytes than remain in the file: a truncated tail at EOF. -/
def truncatedFile : List Nat :=
  [0, 0, 0, 0, 0, 0, 0, 0, 0, 0, 0, 0, 0, 0, 0, 0, 0, 0, 0, 100, 0, 0, 0, 0]

/-- The UTF-8 bytes of the key "user-42" from the spec's keyed-routing
scenario. -/
def keyUser42 : List Nat := [117, 115, 101, 114, 45, 52, 50]

/-- A three-partition topic used by the routing witnesses. -/
def ordersTopic : Topic :=
  { Name := "orders", NumPartitions := 3,
    Partitions := [
      (0, { ID := 0, currentOffset := 0, logStorage := NewLogStorage [] }),
      (1, { ID := 1, currentOffset := 0, logStorage := NewLogStorage [] }),
      (2, { ID := 2, currentOffset := 0, logStorage := NewLogStorage [] })] }

/-- A broker state whose `topics` map holds `ordersTopic`, the shape the
routing code expects to find at lookup time. -/
def ordersBroker : BrokerState :=
  { topics := [(("orders" : String), ordersTopic)], metaTopics := [], offsets := [] }

/-- Sample record for concrete witnesses: one key byte, one payload byte. -/
def sampleEvent : StoredEvent :=
  { Offset := 0, Timestamp := 0, Key := [107], Payload := [1] }

/-- Sample record: one key byte, empty payload. -/
def sampleEvent2 : StoredEvent :=
  { Offset := 0, Timestamp := 5, Key := [97], Payload := [] }

/-- Sample record: empty key, two payload bytes. -/
def sampleEvent3 : StoredEvent :=
  { Offset := 1, Timestamp := 6, Key := [], Payload := [2, 3] }

theorem length_putUint64BE (v : Nat) : (putUint64BE v).length = 8 := rfl

theorem length_putUint32BE (v : Nat) : (putUint32BE v).length = 4 := rfl

theorem length_serializeEvent (e : StoredEvent) :
    (serializeEvent e).length = 24 + e.Key.length + e.Payload.length := by
  simp only [serializeEvent, List.length_append, length_putUint64BE, length_putUint32BE]
  omega

theorem getUint64BE_putUint64BE (v : Nat) (l : List Nat) :
    getUint64BE (putUint64BE v ++ l) = v % 2^64 := by
  have h : getUint64BE (putUint64BE v ++ l) =
      v / 2^56 % 256 * 2^56 + v / 2^48 % 256 * 2^48 + v / 2^40 % 256 * 2^40 +
      v / 2^32 % 256 * 2^32 + v / 2^24 % 256 * 2^24 + v / 2^16 % 256 * 2^16 +
      v / 2^8 % 256 * 2^8 + v % 256 := rfl
  omega

theorem getUint32BE_putUint32BE (v : Nat) (l : List Nat) :
    getUint32BE (putUint32BE v ++ l) = v % 2^32 := by
  have h : getUint32BE (putUint32BE v ++ l) =
      v / 2^24 % 256 * 2^24 + v / 2^16 % 256 * 2^16 + v / 2^8 % 256 * 2^8 + v % 256 := rfl
  omega

theorem toInt64_uint64OfInt (x : Int) (h1 : -(2^63) ≤ x) (h2 : x < 2^63) :
    toInt64 (uint64OfInt x % 2^64) = x := by
  unfold toInt64 uint64OfInt
  omega
/-- Parsing a buffer that starts with one well-formed frame yields the framed
record followed by the parse of the remaining bytes: one pass of the loop in
`deserializeEvents` consumes exactly the frame `serializeEvent e`. -/
theorem deserializeEvents_frame (e : StoredEvent) (rest : List Nat) (he : validEvent e) :
    deserializeEvents (serializeEvent e ++ rest) = e :: deserializeEvents rest := by
  obtain ⟨ho1, ho2, ht1, ht2, hk, hp⟩ := he
  have hd16 : (serializeEvent e ++ rest).drop 16 =
      putUint32BE (uint32OfNat e.Key.length) ++
        ((e.Key ++ (putUint32BE (uint32OfNat e.Payload.length) ++ e.Payload)) ++ rest) := by
    simp only [serializeEvent, List.append_assoc]
    rfl
  have hkl : getUint32BE ((serializeEvent e ++ rest).drop 16) = e.Key.length := by
    rw [hd16, getUint32BE_putUint32BE]
    unfold uint32OfNat
    omega
  have hd20 : (serializeEvent e ++ rest).drop 20 =
      e.Key ++ ((putUint32BE (uint32OfNat e.Payload.length) ++ e.Payload) ++ rest) := by
    simp only [serializeEvent, List.append_assoc]
    rfl
  have hd20k : (serializeEvent e ++ rest).drop (20 + e.Key.length) =
      putUint32BE (uint32OfNat e.Payload.length) ++ (e.Payload ++ rest) := by
    rw [← List.drop_drop, hd20, List.drop_left]
    simp [List.append_assoc]
  have hpl : getUint32BE ((serializeEvent e ++ rest).drop (20 + e.Key.length)) =
      e.Payload.length := by
    rw [hd20k, getUint32BE_putUint32BE]
    unfold uint32OfNat
    omega
  have hd24k : (serializeEvent e ++ rest).drop (24 + e.Key.length) =
      e.Payload ++ rest := by
    have h4 : 24 + e.Key.length = 20 + e.Key.length + 4 := by omega
    rw [h4, ← List.drop_drop, hd20k]
    rfl
  have hdall : (serializeEvent e ++ rest).drop (24 + e.Key.length + e.Payload.length) =
      rest := by
    rw [← List.drop_drop, hd24k, List.drop_left]
  have hoff : getUint64BE (serializeEvent e ++ rest) = uint64OfInt e.Offset % 2^64 := by
    simp only [serializeEvent, List.append_assoc]
    exact getUint64BE_putUint64BE _ _
  have hts : getUint64BE ((serializeEvent e ++ rest).drop 8) =
      uint64OfInt e.Timestamp % 2^64 := by
    have hd8 : (serializeEvent e ++ rest).drop 8 =
        putUint64BE (uint64OfInt e.Timestamp) ++
          ((putUint32BE (uint32OfNat e.Key.length) ++
            (e.Key ++ (putUint32BE (uint32OfNat e.Payload.length) ++ e.Payload))) ++ rest) := by
      simp only [serializeEvent, List.append_assoc]
      rfl
    rw [hd8, getUint64BE_putUint64BE]
  have hlen : 24 ≤ (serializeEvent e ++ rest).length := by
    simp only [List.length_append, length_serializeEvent]
    omega
  conv_lhs => rw [deserializeEvents]
  rw [dif_pos hlen]
  simp only [hkl]
  rw [hpl]
  rw [if_pos (by simp only [List.length_append, length_serializeEvent]; omega :
        24 + e.Key.length ≤ (serializeEvent e ++ rest).length)]
  rw [if_pos (by simp only [List.length_append, length_serializeEvent]; omega :
        24 + e.Key.length + e.Payload.length ≤ (serializeEvent e ++ rest).length)]
  rw [hoff, hts, toInt64_uint64OfInt _ ho1 ho2, toInt64_uint64OfInt _ ht1 ht2]
  rw [hd20, List.take_left, hd24k, List.take_left, hdall]


/-- On a buffer with no complete frame the parse loop stops at once and
returns the empty list, with no error. -/
theorem deserializeEvents_short (t : List Nat) (h : incompleteFrame t) :
    deserializeEvents t = [] := by
  unfold incompleteFrame at h
  conv_lhs => rw [deserializeEvents]
  rcases h with h | h | h
  · rw [dif_neg (by omega)]
  · by_cases h24 : 24 ≤ t.length
    · rw [dif_pos h24]
      rw [if_neg (by omega)]
    · rw [dif_neg h24]
  · by_cases h24 : 24 ≤ t.length
    · rw [dif_pos h24]
      by_cases hg1 : 24 + getUint32BE (t.drop 16) ≤ t.length
      · rw [if_pos hg1, if_neg (by omega)]
      · rw [if_neg hg1]
    · rw [dif_neg h24]

theorem deserializeEvents_nil : deserializeEvents [] = [] :=
  deserializeEvents_short [] (Or.inl (by simp))

/-- Round trip for a single frame: deserializing the serialization of a
representable record returns exactly that one record. -/
theorem deserializeEvents_serialize (e : StoredEvent) (he : validEvent e) :
    deserializeEvents (serializeEvent e) = [e] := by
  have h := deserializeEvents_frame e [] he
  rw [List.append_nil] at h
  rw [h, deserializeEvents_nil]

/-- The parse of a sequence of complete frames followed by a trailing
incomplete frame is exactly the framed records, in order: the truncated
tail is silently discarded. -/
theorem deserializeEvents_frames (es : List StoredEvent) (t : List Nat)
    (hv : ∀ e ∈ es, validEvent e) (ht : incompleteFrame t) :
    deserializeEvents ((es.map serializeEvent).flatten ++ t) = es := by
  induction es with
  | nil =>
      simp only [List.map_nil, List.flatten_nil, List.nil_append]
      exact deserializeEvents_short t ht
  | cons e es ih =>
      simp only [List.map_cons, List.flatten_cons, List.append_assoc]
      rw [deserializeEvents_frame e _ (hv e (by simp))]
      rw [ih (fun x hx => hv x (by simp [hx]))]


/-- C1: the claim says a successful `commit_offset` writes the offset into
the offset store. In the code the facade delegates to
`PartitionManager.CommitOffset`, whose body is `return nil`: the handler
acknowledges with "committed" while the broker state — in particular the
offset store — is left completely unchanged, and a subsequent
`OffsetManager.GetOffset` for the committed triple still finds nothing.
(Spec section 9 note 5 records this defect; the real commit lives in the
unused `OffsetManager`.) -/
theorem commitOffset_facade_writes_nothing :
    (∀ (s : BrokerState) (g t : String) (pid : Nat) (off : Int),
        handleCommitOffset s g t pid off = (s, true)) ∧
    (handleCommitOffset freshBroker ("g1") ("t") 0 7).2 = true ∧
    OffsetManager.GetOffset (handleCommitOffset freshBroker ("g1") ("t") 0 7).1.offsets
      ("g1") ("t") 0 = Except.error ("offset not found") := by
  refine ⟨fun s g t pid off => rfl, rfl, rfl⟩

/-- C2: the claim says the record offsets of N publishes are 0..N-1, each
append incrementing `next_offset` by one, with the record offset returned.
In the code the handler returns the value of `LogStorage.Append` — the
byte offset of the frame — and no code path increments
`partition.currentOffset`: two 24-byte publishes to a fresh partition
return 0 and then 24 (not 1), and the record-offset counter stays 0. -/
theorem publish_returns_byte_offset_and_never_increments :
    (∀ (p : Partition) (key payload : List Nat) (ts : Int),
        (handlePublishEvent p key payload ts).1 = p.logStorage.offset ∧
        (handlePublishEvent p key payload ts).2.currentOffset = p.currentOffset) ∧
    (handlePublishEvent freshPartition [] [] 0).1 = 0 ∧
    (handlePublishEvent (handlePublishEvent freshPartition [] [] 0).2 [] [] 0).1 = 24 ∧
    (handlePublishEvent (handlePublishEvent freshPartition [] [] 0).2 [] [] 0).2.currentOffset
      = 0 := by
  refine ⟨fun p key payload ts => ⟨rfl, rfl⟩, rfl, by decide, rfl⟩

/-- C3: the claim says every append flushes to durable storage before
returning success. The body of `LogStorage.Append` performs exactly one
operation on the file handle — a single `Write` of the complete frame —
and returns; no `Sync`/fsync call occurs in it (or anywhere in the
repository). -/
theorem append_never_syncs (e : StoredEvent) :
    LogStorage.appendOps e = [FileOp.write (serializeEvent e)] ∧
    FileOp.sync ∉ LogStorage.appendOps e := by
  refine ⟨rfl, ?_⟩
  simp [LogStorage.appendOps]

/-- C4: the claim says opening a log segment sets the next-offset counter
to the number of complete frames in the file. `NewLogStorage` sets it to
`info.Size()` — the byte length: on a file holding exactly one 24-byte
frame the counter becomes 24, while the count of framed records is 1. -/
theorem newLogStorage_counts_bytes_not_records :
    (NewLogStorage singleRecordFile).offset = 24 ∧
    framedRecordCount singleRecordFile = 1 ∧
    ((24 : Int) ≠ (1 : Int)) := by
  refine ⟨by decide, ?_, by decide⟩
  unfold framedRecordCount singleRecordFile
  rw [deserializeEvents_serialize _ (by decide)]
  rfl

/-- C5: the claim says routing fails with topic-not-found only for
non-existent topics, so after `AddTopic` succeeds routing must succeed.
In the code `AddTopic` registers the topic only with the metadata manager,
while `RouteEvent` resolves topics through `Broker.GetTopic`, a lookup in
the broker's `topics` map — which no statement in the repository ever
writes: after a successful `AddTopic("t", 1)` the topic is present in the
metadata catalog, yet `GetTopic` returns nothing and routing a publish to
"t" fails with the topic-not-found error. -/
theorem routeEvent_topic_not_found_after_addTopic :
    (Broker.AddTopic freshBroker ("t") 1).2 = none ∧
    ((Broker.AddTopic freshBroker ("t") 1).1.metaTopics.lookup ("t")).isSome = true ∧
    Broker.GetTopic (Broker.AddTopic freshBroker ("t") 1).1 ("t") = none ∧
    PartitionManager.RouteEvent (Broker.AddTopic freshBroker ("t") 1).1 ("t") [97] 0 =
      Except.error ("topic not found") := by
  refine ⟨by decide, by decide, by decide, by decide⟩

/-- C6: for a topic present in the broker's topic map and a non-empty key,
`RouteEvent` selects the partition whose id is the FNV-1a 32-bit hash of
the key's bytes reduced modulo `NumPartitions`, independently of the
random draw used only for empty keys — so two routings of the same
(topic, key) under the same partition count return the same partition. -/
theorem routeEvent_fnv1a_deterministic (s : BrokerState) (name : String)
    (key : List Nat) (t : Topic) (h : Broker.GetTopic s name = some t)
    (hk : key ≠ []) (hn : 0 < t.NumPartitions) (r1 r2 : Nat) :
    PartitionManager.RouteEvent s name key r1 =
      Except.ok (t.Partitions.lookup (fnv1a32 key % t.NumPartitions)) ∧
    PartitionManager.RouteEvent s name key r1 =
      PartitionManager.RouteEvent s name key r2 := by
  have hroute : ∀ r : Nat, PartitionManager.RouteEvent s name key r =
      Except.ok (t.Partitions.lookup (fnv1a32 key % t.NumPartitions)) := by
    intro r
    unfold PartitionManager.RouteEvent
    rw [h]
    simp only [if_pos hk]
  exact ⟨hroute r1, (hroute r1).trans (hroute r2).symm⟩

/-- Witness for C6: the broker state `ordersBroker` holds the
three-partition topic `ordersTopic`; routing the key "user-42" with two
different random draws yields the FNV-1a-selected partition both times. -/
theorem routeEvent_fnv1a_deterministic_witness :
    Broker.GetTopic ordersBroker ("orders") = some ordersTopic ∧
    keyUser42 ≠ [] ∧ 0 < ordersTopic.NumPartitions ∧
    (PartitionManager.RouteEvent ordersBroker ("orders") keyUser42 5 =
        Except.ok (ordersTopic.Partitions.lookup
          (fnv1a32 keyUser42 % ordersTopic.NumPartitions)) ∧
      PartitionManager.RouteEvent ordersBroker ("orders") keyUser42 5 =
        PartitionManager.RouteEvent ordersBroker ("orders") keyUser42 9) :=
  ⟨by decide, by decide, by decide,
    routeEvent_fnv1a_deterministic ordersBroker ("orders") keyUser42 ordersTopic
      (by decide) (by decide) (by decide) 5 9⟩

/-- C7: framing round-trip — deserializing the serialization of any
representable record (any `int64` offset and timestamp, key and payload
lengths below 2^32, empty key and empty payload included) returns exactly
that one record. -/
theorem framing_round_trip (e : StoredEvent) (he : validEvent e) :
    deserializeEvents (serializeEvent e) = [e] :=
  deserializeEvents_serialize e he

/-- Witness for C7 at a concrete record with empty key, empty payload and
negative offset and timestamp. -/
theorem framing_round_trip_witness :
    validEvent { Offset := -1, Timestamp := -2, Key := [], Payload := [] } ∧
    deserializeEvents (serializeEvent
        { Offset := -1, Timestamp := -2, Key := [], Payload := [] }) =
      [{ Offset := -1, Timestamp := -2, Key := [], Payload := [] }] :=
  ⟨by decide, framing_round_trip _ (by decide)⟩

/-- C8 counterexample: on `truncatedFile` — a 24-byte file whose key
length prefix claims 100 bytes, more than remain, at EOF — the claim says
`Read` fails with a CorruptFrame error; instead `Read` succeeds and
returns the empty list. -/
theorem read_truncated_tail_cex :
    truncatedFile.length < 24 + getUint32BE (truncatedFile.drop 16) ∧
    LogStorage.Read (NewLogStorage truncatedFile) 0 1024 = Except.ok [] := by
  constructor
  · decide
  · have hb : ((NewLogStorage truncatedFile).file.drop 0).take 1024 = truncatedFile := by
      decide
    unfold LogStorage.Read
    simp only [hb]
    rw [if_neg (by decide), deserializeEvents_short truncatedFile (by decide)]

/-- C8 as amended: `Read` never fails on a truncated tail; a frame whose
length prefix claims more bytes than remain is silently discarded, and
`Read` returns exactly the complete frames that precede it. -/
theorem read_discards_truncated_tail (es : List StoredEvent) (t : List Nat) (maxBytes : Nat)
    (hv : ∀ e ∈ es, validEvent e) (ht : incompleteFrame t)
    (hm : ((es.map serializeEvent).flatten ++ t).length ≤ maxBytes) :
    LogStorage.Read (NewLogStorage ((es.map serializeEvent).flatten ++ t)) 0 maxBytes =
      Except.ok es := by
  have hparse := deserializeEvents_frames es t hv ht
  unfold LogStorage.Read NewLogStorage
  simp only [List.drop_zero]
  rw [List.take_of_length_le hm]
  by_cases hz : ((es.map serializeEvent).flatten ++ t).length = 0
  · rw [if_pos hz]
    have hempty : (es.map serializeEvent).flatten ++ t = [] := List.length_eq_zero.mp hz
    rw [hempty, deserializeEvents_nil] at hparse
    rw [← hparse]
  · rw [if_neg hz, hparse]

/-- Witness for the amended C8: one complete frame followed by a single
stray byte; `Read` returns that one record and no error. -/
theorem read_discards_truncated_tail_witness :
    (∀ e ∈ [sampleEvent], validEvent e) ∧ incompleteFrame [0] ∧
    (([sampleEvent].map serializeEvent).flatten ++ [0]).length ≤ 1024 ∧
    LogStorage.Read (NewLogStorage (([sampleEvent].map serializeEvent).flatten ++ [0]))
        0 1024 = Except.ok [sampleEvent] :=
  ⟨by decide, by decide, by decide,
    read_discards_truncated_tail [sampleEvent] [0] 1024 (by decide) (by decide) (by decide)⟩

/-- C9: `deserializeEvents` is total by construction (its recursion is on
the strictly decreasing buffer length; every frame consumes at least 24
bytes, and every slice is guarded by an explicit length check before it is
taken), and it returns exactly the leading complete frames of the buffer,
stopping without error at a trailing incomplete frame. -/
theorem deserializeEvents_returns_complete_leading_frames
    (es : List StoredEvent) (t : List Nat)
    (hv : ∀ e ∈ es, validEvent e) (ht : incompleteFrame t) :
    deserializeEvents ((es.map serializeEvent).flatten ++ t) = es :=
  deserializeEvents_frames es t hv ht

/-- Witness for C9: two complete frames followed by a two-byte truncated
tail parse to exactly those two records. -/
theorem deserializeEvents_returns_complete_leading_frames_witness :
    (∀ e ∈ [sampleEvent2, sampleEvent3], validEvent e) ∧
    incompleteFrame [255, 255] ∧
    deserializeEvents (([sampleEvent2, sampleEvent3].map serializeEvent).flatten ++
        [255, 255]) = [sampleEvent2, sampleEvent3] :=
  ⟨by decide, by decide,
    deserializeEvents_returns_complete_leading_frames [sampleEvent2, sampleEvent3]
      [255, 255] (by decide) (by decide)⟩

/-- C10: the offset store flattens (group, topic, partition) with "-" as
separator, which is not injective: ("a-b", "c", 0) and ("a", "b-c", 0)
share the key "a-b-c-0", so committing an offset for the first changes
what `GetOffset` returns for the second — from a missing entry to the
just-committed value. -/
theorem offsetKey_collision_crosses_groups :
    offsetKey ("a-b") ("c") 0 = offsetKey ("a") ("b-c") 0 ∧
    (("a-b" : String) ≠ ("a" : String)) ∧
    OffsetManager.GetOffset [] ("a") ("b-c") 0 = Except.error ("offset not found") ∧
    OffsetManager.GetOffset
        (OffsetManager.CommitOffset [] ("a-b") ("c") 0 7) ("a") ("b-c") 0 =
      Except.ok 7 := by
  refine ⟨by decide, by decide, rfl, by decide⟩
